import Mathlib

/-!
Shallow embedding of the tap-detection core in src/tap_detect.c: the level-1
Haar detail transform, the banded local-peak detector, and the persistent
tap-sequencing state machine driven by tap_detect_status, together with
theorems settling the specification claims about them.

Machine integers are modelled as Int (samples, thresholds) and Nat
(counters); the C counters never go negative on any path of the active code
(the cooldown is only decremented under a nonzero test, and the block
counter only increments), and `current_block_cnt - first_tap_block_time`
is only formed when the pending time is a previously recorded value of the
monotone block counter, so Nat subtraction agrees with the C unsigned
subtraction on all reachable states.

C array reads are total only inside the freshly computed coefficient data;
a read outside it (index -1, or an index at or beyond the coefficient
count, which in C lands on stale buffer contents or outside the static
array) is modelled as `none`, and `none` propagates through
tap_detect_status.
-/

/-- Classification returned per block (tap_detection_result_e in tap_detect.h). -/
inductive tap_detection_result_e where
  | TAP_NONE
  | TAP_SINGLE
  | TAP_DOUBLE
deriving DecidableEq, Repr

open tap_detection_result_e

/-- TRANSIENT_THRESHOLD_MIN_FXP from tap_detect.h: (int)(16106127). -/
def TRANSIENT_THRESHOLD_MIN_FXP : Int := 16106127

/-- TRANSIENT_THRESHOLD_MAX_FXP from tap_detect.h: 16106127 << 1. -/
def TRANSIENT_THRESHOLD_MAX_FXP : Int := 16106127 * 2

/-- The per-block averaging loop of tap_detect_status:
`analysis_sig[n] = (mic1_sig[n] + mic2_sig[n]) >> 1`; the arithmetic right
shift of a signed int by one bit is floor division by 2. -/
def combine_mics (mic1_sig mic2_sig : List Int) : List Int :=
  List.zipWith (fun a b => Int.fdiv (a + b) 2) mic1_sig mic2_sig

/-- tap_detect_haar_dwt_l1: `cd_len = sig_len >> 1` and
`coeff_cd1[n] = inp_sig[2n+1] - inp_sig[2n]`. -/
def tap_detect_haar_dwt_l1 (inp_sig : List Int) : List Int :=
  (List.range (inp_sig.length / 2)).map fun n =>
    inp_sig.getD (2 * n + 1) 0 - inp_sig.getD (2 * n) 0

/-- Read inp_sig[i]: defined only for 0 ≤ i < the length of the fresh data. -/
def readCoeff (inp_sig : List Int) (i : Int) : Option Int :=
  if 0 ≤ i ∧ i < inp_sig.length then some (inp_sig.getD i.toNat 0) else none

/-- One boundary test of tap_detect_find_peaks at index i with its single
neighbor j, with C short-circuit evaluation: the neighbor is read only when
the band test on index i passes.  Returns the contribution (0 or 1) added to
num_peaks, or none when a read is outside the fresh coefficient data. -/
def boundary_peak_check (inp_sig : List Int) (min_threshold max_threshold i j : Int) :
    Option Nat :=
  (readCoeff inp_sig i).bind fun v =>
    if min_threshold ≤ v ∧ v ≤ max_threshold then
      (readCoeff inp_sig j).map fun w => if w < v then 1 else 0
    else
      some 0

/-- Body of the interior loop of tap_detect_find_peaks for 1 ≤ n ≤ sig_len-2:
both neighbors exist, so the reads are total. -/
def interior_peak_check (inp_sig : List Int) (min_threshold max_threshold : Int)
    (n : Nat) : Bool :=
  decide (min_threshold ≤ inp_sig.getD n 0) && decide (inp_sig.getD n 0 ≤ max_threshold) &&
    decide (inp_sig.getD (n - 1) 0 < inp_sig.getD n 0) &&
    decide (inp_sig.getD (n + 1) 0 < inp_sig.getD n 0)

/-- tap_detect_find_peaks: the n = 0 test, the loop over 1 ≤ n < sig_len - 1,
then the n = sig_len - 1 test, summing the qualifying indices. -/
def tap_detect_find_peaks (inp_sig : List Int) (min_threshold max_threshold : Int) :
    Option Nat :=
  (boundary_peak_check inp_sig min_threshold max_threshold 0 1).bind fun c0 =>
    (boundary_peak_check inp_sig min_threshold max_threshold
        ((inp_sig.length : Int) - 1) ((inp_sig.length : Int) - 2)).map fun clast =>
      c0 + (List.range' 1 (inp_sig.length - 2)).countP
        (interior_peak_check inp_sig min_threshold max_threshold) + clast

/-- The four static variables of tap_detect.c that the active
tap_detect_status reads and writes across blocks. -/
structure TapState where
  cooldown_block_cnt : Nat
  current_block_cnt : Nat
  first_tap_pending : Bool
  first_tap_block_time : Nat
deriving DecidableEq, Repr

/-- Initial values of the static variables:
cooldown_block_cnt = 100, current_block_cnt = 0,
first_tap_pending = false, first_tap_block_time = 0. -/
def initTapState : TapState :=
  { cooldown_block_cnt := 100
    current_block_cnt := 0
    first_tap_pending := false
    first_tap_block_time := 0 }

/-- The analysis → Haar → find_peaks pipeline that tap_detect_status runs on
one block pair, with the thresholds of tap_detect.h. -/
def block_peak_scan (mic1_sig mic2_sig : List Int) : Option Nat :=
  tap_detect_find_peaks (tap_detect_haar_dwt_l1 (combine_mics mic1_sig mic2_sig))
    TRANSIENT_THRESHOLD_MIN_FXP TRANSIENT_THRESHOLD_MAX_FXP

/-- The tap-sequence logic of tap_detect_status (the code after peak
detection): cooldown reset to 40 on a new distinct tap, the double/single
decision against the 130-block window, and the timeout branch. -/
def tap_seq_update (num_peaks_this_block cooldown_after_scan current_block_cnt : Nat)
    (first_tap_pending : Bool) (first_tap_block_time : Nat) :
    tap_detection_result_e × TapState :=
  let cd := if 0 < num_peaks_this_block then 40 else cooldown_after_scan
  if 0 < num_peaks_this_block then
    if first_tap_pending then
      if current_block_cnt - first_tap_block_time ≤ 130 then
        (TAP_DOUBLE, ⟨cd, current_block_cnt, false, 0⟩)
      else
        (TAP_SINGLE, ⟨cd, current_block_cnt, true, current_block_cnt⟩)
    else
      (TAP_NONE, ⟨cd, current_block_cnt, true, current_block_cnt⟩)
  else
    if first_tap_pending = true ∧ 130 < current_block_cnt - first_tap_block_time then
      (TAP_SINGLE, ⟨cd, current_block_cnt, false, 0⟩)
    else
      (TAP_NONE, ⟨cd, current_block_cnt, first_tap_pending, first_tap_block_time⟩)

/-- tap_detect_status: increment the block counter, combine the mics, take
the level-1 Haar detail coefficients, run peak detection unless in cooldown
(in cooldown the counter is decremented instead), then apply the sequencing
logic.  none marks a run into reads outside the fresh coefficients. -/
def tap_detect_status (mic1_sig mic2_sig : List Int) (s : TapState) :
    Option (tap_detection_result_e × TapState) :=
  (if s.cooldown_block_cnt = 0 then
     (block_peak_scan mic1_sig mic2_sig).map (fun np => (np, s.cooldown_block_cnt))
   else some (0, s.cooldown_block_cnt - 1)).map fun pc =>
    tap_seq_update pc.1 pc.2 (s.current_block_cnt + 1)
      s.first_tap_pending s.first_tap_block_time

/-- Iterate tap_detect_status over a sequence of block pairs, collecting the
per-block classifications. -/
def tap_detect_run (blocks : List (List Int × List Int)) (s : TapState) :
    Option (List tap_detection_result_e × TapState) :=
  match blocks with
  | [] => some ([], s)
  | b :: rest =>
    (tap_detect_status b.1 b.2 s).bind fun rs =>
      (tap_detect_run rest rs.2).map fun out => (rs.1 :: out.1, out.2)

/-- A block pair on which the pipeline reports zero qualifying peaks. -/
def isQuietBlock (b : List Int × List Int) : Bool :=
  block_peak_scan b.1 b.2 == some 0

/-- A block pair on which the pipeline reports at least one qualifying peak. -/
def isTapBlock (b : List Int × List Int) : Bool :=
  match block_peak_scan b.1 b.2 with
  | some np => decide (0 < np)
  | none => false

/-- A silence block (mic1 = mic2 = 0) of a given length. -/
def zeroBlockOf (len : Nat) : List Int × List Int :=
  (List.replicate len 0, List.replicate len 0)

/-- A silence block of length 4. -/
def zeroBlock : List Int × List Int := zeroBlockOf 4

/-- A length-4 block whose Haar coefficients are [16106127, 0]: one clean
in-band transient peak. -/
def tapBlock : List Int × List Int :=
  ([0, 16106127, 0, 0], [0, 16106127, 0, 0])

example : block_peak_scan tapBlock.1 tapBlock.2 = some 1 := by decide

example : block_peak_scan zeroBlock.1 zeroBlock.2 = some 0 := by decide

example : tap_detect_status [0, 32212254] [0, 32212254] ⟨0, 100, false, 0⟩ = none := by
  decide

/-! ## Basic step lemmas for the sequencing state machine -/

theorem isQuietBlock_iff (b : List Int × List Int) :
    isQuietBlock b = true ↔ block_peak_scan b.1 b.2 = some 0 := by
  simp [isQuietBlock]

theorem isTapBlock_iff (b : List Int × List Int) :
    isTapBlock b = true ↔ ∃ np, block_peak_scan b.1 b.2 = some np ∧ 0 < np := by
  unfold isTapBlock
  cases h : block_peak_scan b.1 b.2 with
  | none => simp
  | some np => simp

theorem status_of_scan (m1 m2 : List Int) (s : TapState) (np : Nat)
    (h0 : s.cooldown_block_cnt = 0) (hscan : block_peak_scan m1 m2 = some np) :
    tap_detect_status m1 m2 s =
      some (tap_seq_update np 0 (s.current_block_cnt + 1)
        s.first_tap_pending s.first_tap_block_time) := by
  simp [tap_detect_status, h0, hscan]

theorem status_of_cooldown (m1 m2 : List Int) (s : TapState)
    (h0 : s.cooldown_block_cnt ≠ 0) :
    tap_detect_status m1 m2 s =
      some (tap_seq_update 0 (s.cooldown_block_cnt - 1) (s.current_block_cnt + 1)
        s.first_tap_pending s.first_tap_block_time) := by
  simp [tap_detect_status, h0]

theorem seq_no_peak_idle (cd c t : Nat) :
    tap_seq_update 0 cd c false t = (TAP_NONE, ⟨cd, c, false, t⟩) := by
  simp [tap_seq_update]

theorem seq_no_peak_wait (cd c t : Nat) (h : c - t ≤ 130) :
    tap_seq_update 0 cd c true t = (TAP_NONE, ⟨cd, c, true, t⟩) := by
  simp [tap_seq_update]
  omega

theorem seq_no_peak_timeout (cd c t : Nat) (h : 130 < c - t) :
    tap_seq_update 0 cd c true t = (TAP_SINGLE, ⟨cd, c, false, 0⟩) := by
  simp [tap_seq_update, h]

theorem seq_peak_idle (np cd c t : Nat) (h : 0 < np) :
    tap_seq_update np cd c false t = (TAP_NONE, ⟨40, c, true, c⟩) := by
  simp [tap_seq_update, h]

theorem seq_peak_double (np cd c t : Nat) (h : 0 < np) (hw : c - t ≤ 130) :
    tap_seq_update np cd c true t = (TAP_DOUBLE, ⟨40, c, false, 0⟩) := by
  simp [tap_seq_update, h, hw]

theorem seq_peak_single (np cd c t : Nat) (h : 0 < np) (hw : 130 < c - t) :
    tap_seq_update np cd c true t = (TAP_SINGLE, ⟨40, c, true, c⟩) := by
  simp [tap_seq_update, h, Nat.not_le.mpr hw]

theorem status_quiet_idle (b : List Int × List Int) (s : TapState)
    (hq : isQuietBlock b = true) (hp : s.first_tap_pending = false) :
    tap_detect_status b.1 b.2 s =
      some (TAP_NONE, ⟨s.cooldown_block_cnt - 1, s.current_block_cnt + 1, false,
        s.first_tap_block_time⟩) := by
  rcases Nat.eq_zero_or_pos s.cooldown_block_cnt with h0 | h0
  · rw [status_of_scan b.1 b.2 s 0 h0 ((isQuietBlock_iff b).mp hq), hp, seq_no_peak_idle, h0]
  · rw [status_of_cooldown b.1 b.2 s (Nat.pos_iff_ne_zero.mp h0), hp, seq_no_peak_idle]

theorem status_quiet_wait (b : List Int × List Int) (s : TapState)
    (hq : isQuietBlock b = true) (hp : s.first_tap_pending = true)
    (hw : s.current_block_cnt + 1 - s.first_tap_block_time ≤ 130) :
    tap_detect_status b.1 b.2 s =
      some (TAP_NONE, ⟨s.cooldown_block_cnt - 1, s.current_block_cnt + 1, true,
        s.first_tap_block_time⟩) := by
  rcases Nat.eq_zero_or_pos s.cooldown_block_cnt with h0 | h0
  · rw [status_of_scan b.1 b.2 s 0 h0 ((isQuietBlock_iff b).mp hq), hp,
      seq_no_peak_wait _ _ _ hw, h0]
  · rw [status_of_cooldown b.1 b.2 s (Nat.pos_iff_ne_zero.mp h0), hp,
      seq_no_peak_wait _ _ _ hw]

theorem status_quiet_timeout (b : List Int × List Int) (s : TapState)
    (hq : isQuietBlock b = true) (hp : s.first_tap_pending = true)
    (hw : 130 < s.current_block_cnt + 1 - s.first_tap_block_time) :
    tap_detect_status b.1 b.2 s =
      some (TAP_SINGLE, ⟨s.cooldown_block_cnt - 1, s.current_block_cnt + 1, false, 0⟩) := by
  rcases Nat.eq_zero_or_pos s.cooldown_block_cnt with h0 | h0
  · rw [status_of_scan b.1 b.2 s 0 h0 ((isQuietBlock_iff b).mp hq), hp,
      seq_no_peak_timeout _ _ _ hw, h0]
  · rw [status_of_cooldown b.1 b.2 s (Nat.pos_iff_ne_zero.mp h0), hp,
      seq_no_peak_timeout _ _ _ hw]

theorem status_tap_idle (b : List Int × List Int) (s : TapState)
    (ht : isTapBlock b = true) (h0 : s.cooldown_block_cnt = 0)
    (hp : s.first_tap_pending = false) :
    tap_detect_status b.1 b.2 s =
      some (TAP_NONE, ⟨40, s.current_block_cnt + 1, true, s.current_block_cnt + 1⟩) := by
  obtain ⟨np, hscan, hnp⟩ := (isTapBlock_iff b).mp ht
  rw [status_of_scan b.1 b.2 s np h0 hscan, hp, seq_peak_idle _ _ _ _ hnp]

theorem status_tap_double (b : List Int × List Int) (s : TapState)
    (ht : isTapBlock b = true) (h0 : s.cooldown_block_cnt = 0)
    (hp : s.first_tap_pending = true)
    (hw : s.current_block_cnt + 1 - s.first_tap_block_time ≤ 130) :
    tap_detect_status b.1 b.2 s =
      some (TAP_DOUBLE, ⟨40, s.current_block_cnt + 1, false, 0⟩) := by
  obtain ⟨np, hscan, hnp⟩ := (isTapBlock_iff b).mp ht
  rw [status_of_scan b.1 b.2 s np h0 hscan, hp, seq_peak_double _ _ _ _ hnp hw]

theorem status_tap_single (b : List Int × List Int) (s : TapState)
    (ht : isTapBlock b = true) (h0 : s.cooldown_block_cnt = 0)
    (hp : s.first_tap_pending = true)
    (hw : 130 < s.current_block_cnt + 1 - s.first_tap_block_time) :
    tap_detect_status b.1 b.2 s =
      some (TAP_SINGLE, ⟨40, s.current_block_cnt + 1, true, s.current_block_cnt + 1⟩) := by
  obtain ⟨np, hscan, hnp⟩ := (isTapBlock_iff b).mp ht
  rw [status_of_scan b.1 b.2 s np h0 hscan, hp, seq_peak_single _ _ _ _ hnp hw]

/-! ## Silence blocks are quiet -/

theorem getD_replicate_zero (n i : Nat) : (List.replicate n (0:Int)).getD i 0 = 0 := by
  induction n generalizing i with
  | zero => simp
  | succ k ih =>
    cases i with
    | zero => simp [List.replicate_succ]
    | succ j => simp [List.replicate_succ, List.getD_cons_succ, ih j]

theorem combine_mics_zero (n : Nat) :
    combine_mics (List.replicate n 0) (List.replicate n 0) = List.replicate n 0 := by
  induction n with
  | zero => rfl
  | succ k ih =>
    simp only [combine_mics, List.replicate_succ, List.zipWith_cons_cons] at ih ⊢
    rw [ih]
    norm_num [Int.fdiv]

theorem haar_replicate_zero (n : Nat) :
    tap_detect_haar_dwt_l1 (List.replicate n 0) = List.replicate (n / 2) 0 := by
  unfold tap_detect_haar_dwt_l1
  rw [List.length_replicate]
  rw [show ∀ L, (List.range L).map (fun k =>
      (List.replicate n (0:Int)).getD (2 * k + 1) 0 - (List.replicate n 0).getD (2 * k) 0) =
      List.replicate L 0 from ?_]
  intro L
  rw [List.map_congr_left (g := fun _ => (0:Int)), List.map_const']
  · simp
  · intro a _
    simp [getD_replicate_zero]

theorem readCoeff_replicate_zero (m : Nat) (i : Int) (h0 : 0 ≤ i) (hm : i < (m:Int)) :
    readCoeff (List.replicate m 0) i = some 0 := by
  unfold readCoeff
  rw [if_pos (by simpa using ⟨h0, hm⟩)]
  simp [getD_replicate_zero]

theorem boundary_zero (m : Nat) (i j : Int) (h0 : 0 ≤ i) (hm : i < (m:Int)) :
    boundary_peak_check (List.replicate m 0) TRANSIENT_THRESHOLD_MIN_FXP
      TRANSIENT_THRESHOLD_MAX_FXP i j = some 0 := by
  have hband : ¬(TRANSIENT_THRESHOLD_MIN_FXP ≤ (0:Int) ∧
      (0:Int) ≤ TRANSIENT_THRESHOLD_MAX_FXP) := by
    norm_num [TRANSIENT_THRESHOLD_MIN_FXP]
  unfold boundary_peak_check
  rw [readCoeff_replicate_zero m i h0 hm]
  simp [hband]

theorem find_peaks_replicate_zero (m : Nat) (hm : 1 ≤ m) :
    tap_detect_find_peaks (List.replicate m 0) TRANSIENT_THRESHOLD_MIN_FXP
      TRANSIENT_THRESHOLD_MAX_FXP = some 0 := by
  unfold tap_detect_find_peaks
  rw [List.length_replicate]
  rw [boundary_zero m 0 1 (by omega) (by exact_mod_cast hm)]
  rw [boundary_zero m ((m:Int) - 1) ((m:Int) - 2) (by omega) (by omega)]
  rw [List.countP_eq_zero.mpr]
  · rfl
  · intro n _
    simp [interior_peak_check, getD_replicate_zero, TRANSIENT_THRESHOLD_MIN_FXP]

theorem isQuietBlock_zero (len : Nat) (h : 2 ≤ len) :
    isQuietBlock (zeroBlockOf len) = true := by
  rw [isQuietBlock_iff]
  unfold zeroBlockOf block_peak_scan
  rw [combine_mics_zero, haar_replicate_zero]
  exact find_peaks_replicate_zero _ (by omega)

/-! ## Run lemmas -/

theorem run_append (xs ys : List (List Int × List Int)) (s : TapState)
    (rs1 : List tap_detection_result_e) (s1 : TapState)
    (rs2 : List tap_detection_result_e) (s2 : TapState)
    (h1 : tap_detect_run xs s = some (rs1, s1))
    (h2 : tap_detect_run ys s1 = some (rs2, s2)) :
    tap_detect_run (xs ++ ys) s = some (rs1 ++ rs2, s2) := by
  induction xs generalizing s rs1 with
  | nil =>
    simp only [tap_detect_run, Option.some.injEq, Prod.mk.injEq] at h1
    obtain ⟨hr, hs⟩ := h1
    subst hr
    subst hs
    simpa using h2
  | cons b bs ih =>
    rw [tap_detect_run] at h1
    cases hst : tap_detect_status b.1 b.2 s with
    | none => rw [hst] at h1; simp at h1
    | some rs =>
      rw [hst, Option.some_bind] at h1
      cases hrun : tap_detect_run bs rs.2 with
      | none => rw [hrun] at h1; simp at h1
      | some out =>
        rw [hrun, Option.map_some'] at h1
        simp only [Option.some.injEq, Prod.mk.injEq] at h1
        rw [List.cons_append, tap_detect_run, hst, Option.some_bind]
        have hbs : tap_detect_run bs rs.2 = some (out.1, s1) := by
          rw [hrun, ← h1.2]
        rw [ih rs.2 out.1 hbs, Option.map_some', ← h1.1]
        simp

theorem run_quiet_idle (bs : List (List Int × List Int)) (s : TapState)
    (hq : ∀ b ∈ bs, isQuietBlock b = true) (hp : s.first_tap_pending = false) :
    tap_detect_run bs s = some (List.replicate bs.length TAP_NONE,
      ⟨s.cooldown_block_cnt - bs.length, s.current_block_cnt + bs.length, false,
        s.first_tap_block_time⟩) := by
  induction bs generalizing s with
  | nil =>
    obtain ⟨cd, c, p, t⟩ := s
    simp at hp
    subst hp
    simp [tap_detect_run]
  | cons b rest ih =>
    rw [tap_detect_run, status_quiet_idle b s (hq b (List.mem_cons_self b rest)) hp,
      Option.some_bind]
    rw [ih ⟨s.cooldown_block_cnt - 1, s.current_block_cnt + 1, false, s.first_tap_block_time⟩
      (fun x hx => hq x (List.mem_cons_of_mem b hx)) rfl, Option.map_some']
    simp only [List.length_cons, List.replicate_succ, Option.some.injEq, Prod.mk.injEq,
      List.cons.injEq, TapState.mk.injEq, true_and, and_true]
    omega

theorem run_cooldown_idle (bs : List (List Int × List Int)) (s : TapState)
    (hp : s.first_tap_pending = false) (hcd : bs.length ≤ s.cooldown_block_cnt) :
    tap_detect_run bs s = some (List.replicate bs.length TAP_NONE,
      ⟨s.cooldown_block_cnt - bs.length, s.current_block_cnt + bs.length, false,
        s.first_tap_block_time⟩) := by
  induction bs generalizing s with
  | nil =>
    obtain ⟨cd, c, p, t⟩ := s
    simp at hp
    subst hp
    simp [tap_detect_run]
  | cons b rest ih =>
    have h0 : s.cooldown_block_cnt ≠ 0 := by
      simp only [List.length_cons] at hcd
      omega
    rw [tap_detect_run, status_of_cooldown b.1 b.2 s h0, hp, seq_no_peak_idle,
      Option.some_bind]
    rw [ih ⟨s.cooldown_block_cnt - 1, s.current_block_cnt + 1, false, s.first_tap_block_time⟩
      rfl (by simp only [List.length_cons] at hcd; simp; omega), Option.map_some']
    simp only [List.length_cons, List.replicate_succ, Option.some.injEq, Prod.mk.injEq,
      List.cons.injEq, TapState.mk.injEq, true_and, and_true]
    omega

theorem run_quiet_wait (bs : List (List Int × List Int)) (s : TapState)
    (hq : ∀ b ∈ bs, isQuietBlock b = true) (hp : s.first_tap_pending = true)
    (hw : s.current_block_cnt + bs.length ≤ s.first_tap_block_time + 130) :
    tap_detect_run bs s = some (List.replicate bs.length TAP_NONE,
      ⟨s.cooldown_block_cnt - bs.length, s.current_block_cnt + bs.length, true,
        s.first_tap_block_time⟩) := by
  induction bs generalizing s with
  | nil =>
    obtain ⟨cd, c, p, t⟩ := s
    simp at hp
    subst hp
    simp [tap_detect_run]
  | cons b rest ih =>
    simp only [List.length_cons] at hw
    rw [tap_detect_run, status_quiet_wait b s (hq b (List.mem_cons_self b rest)) hp
      (by omega), Option.some_bind]
    rw [ih ⟨s.cooldown_block_cnt - 1, s.current_block_cnt + 1, true, s.first_tap_block_time⟩
      (fun x hx => hq x (List.mem_cons_of_mem b hx)) rfl (by simp; omega), Option.map_some']
    simp only [List.length_cons, List.replicate_succ, Option.some.injEq, Prod.mk.injEq,
      List.cons.injEq, TapState.mk.injEq, true_and, and_true]
    omega

/-! ## Claim C1: the initial detector state -/

/-- C1 counterexample: the claim asserts that cooldown_remaining is 0 at the
first invocation, so that peak detection is not suppressed on the first
block.  In the code `static int32_t cooldown_block_cnt = 100`, so the
cooldown starts at 100, not 0, and even a clean tap transient in the very
first block is classified TAP_NONE. -/
theorem C1_counterexample :
    ¬initTapState.cooldown_block_cnt = 0 ∧
    tap_detect_status tapBlock.1 tapBlock.2 initTapState =
      some (TAP_NONE, ⟨99, 1, false, 0⟩) := by
  decide

/-- C1 amended: at the first invocation of tap_detect_status,
block_counter is 0, first_tap_pending is false, first_tap_block_time is 0,
and cooldown_block_cnt is 100, so peak detection IS suppressed on the first
block: whatever the block contents, the first call returns no-tap. -/
theorem C1_amended_initial_state :
    initTapState.current_block_cnt = 0 ∧ initTapState.first_tap_pending = false ∧
    initTapState.first_tap_block_time = 0 ∧ initTapState.cooldown_block_cnt = 100 ∧
    ∀ b : List Int × List Int,
      (tap_detect_status b.1 b.2 initTapState).map Prod.fst = some TAP_NONE := by
  refine ⟨rfl, rfl, rfl, rfl, ?_⟩
  intro b
  rw [status_of_cooldown b.1 b.2 initTapState (by decide)]
  rfl

/-! ## Claim C9: the first 100 invocations are suppressed by the cooldown -/

/-- C9: starting from the program's initial state, any run of at most 100
blocks — of arbitrary audio content — returns no-tap for every block,
because the initial cooldown of 100 suppresses peak detection; the state
after k blocks is ⟨100 - k, k, false, 0⟩. -/
theorem C9_first_blocks_no_tap (blocks : List (List Int × List Int))
    (h : blocks.length ≤ 100) :
    tap_detect_run blocks initTapState =
      some (List.replicate blocks.length TAP_NONE,
        ⟨100 - blocks.length, blocks.length, false, 0⟩) := by
  have hr := run_cooldown_idle blocks initTapState rfl (by exact h)
  simpa [initTapState] using hr

/-- C9 witness: a single block carrying a clean tap transient still returns
no-tap on the very first invocation. -/
theorem C9_witness :
    [tapBlock].length ≤ 100 ∧
    tap_detect_run [tapBlock] initTapState =
      some (List.replicate 1 TAP_NONE, ⟨99, 1, false, 0⟩) :=
  ⟨by decide, C9_first_blocks_no_tap [tapBlock] (by decide)⟩

/-! ## Claim C8: silence from any IDLE state stays IDLE with no-tap -/

/-- C8: from any state with first_tap_pending = false (any IDLE state, in
particular any reachable one), feeding any number k of all-zero blocks of
any valid length 2 ≤ len ≤ 192 returns no-tap for every block, and the
sequencer stays IDLE (first_tap_pending remains false) throughout. -/
theorem C8_silence_stays_idle (s : TapState) (hidle : s.first_tap_pending = false)
    (k len : Nat) (h2 : 2 ≤ len) (h192 : len ≤ 192) :
    tap_detect_run (List.replicate k (zeroBlockOf len)) s =
      some (List.replicate k TAP_NONE,
        ⟨s.cooldown_block_cnt - k, s.current_block_cnt + k, false,
          s.first_tap_block_time⟩) := by
  have hq : ∀ b ∈ List.replicate k (zeroBlockOf len), isQuietBlock b = true := by
    intro b hb
    rw [List.eq_of_mem_replicate hb]
    exact isQuietBlock_zero len h2
  have hr := run_quiet_idle (List.replicate k (zeroBlockOf len)) s hq hidle
  simpa using hr

/-- C8 witness: three silence blocks of length 4 from an IDLE state with the
cooldown already expired produce three no-taps and leave the state IDLE. -/
theorem C8_witness :
    ((⟨0, 200, false, 0⟩ : TapState).first_tap_pending = false ∧ 2 ≤ 4 ∧ 4 ≤ 192) ∧
    tap_detect_run (List.replicate 3 (zeroBlockOf 4)) ⟨0, 200, false, 0⟩ =
      some (List.replicate 3 TAP_NONE, ⟨0 - 3, 200 + 3, false, 0⟩) :=
  ⟨⟨rfl, by decide, by decide⟩,
    C8_silence_stays_idle ⟨0, 200, false, 0⟩ rfl 3 4 (by decide) (by decide)⟩

/-! ## Claim C10: IDLE implies first_tap_block_time = 0 -/

/-- The claimed invariant: whenever the sequencer is IDLE
(first_tap_pending = false), first_tap_block_time is 0. -/
def TapInv (s : TapState) : Prop :=
  s.first_tap_pending = false → s.first_tap_block_time = 0

theorem seq_update_inv (np cd c : Nat) (p : Bool) (t : Nat)
    (h : p = false → t = 0) : TapInv (tap_seq_update np cd c p t).2 := by
  unfold TapInv tap_seq_update
  repeat' split
  all_goals intro hp
  all_goals simp_all

/-- C10: the invariant (first_tap_pending = false → first_tap_block_time = 0)
holds in the initial state and is preserved by every invocation of
tap_detect_status that completes. -/
theorem C10_idle_time_zero :
    TapInv initTapState ∧
    ∀ (mic1_sig mic2_sig : List Int) (s : TapState) (r : tap_detection_result_e)
      (s1 : TapState), TapInv s →
      tap_detect_status mic1_sig mic2_sig s = some (r, s1) → TapInv s1 := by
  constructor
  · intro _
    rfl
  · intro m1 m2 s r s1 hinv hstep
    unfold tap_detect_status at hstep
    by_cases h0 : s.cooldown_block_cnt = 0
    · rw [if_pos h0] at hstep
      cases hscan : block_peak_scan m1 m2 with
      | none => rw [hscan] at hstep; simp at hstep
      | some np =>
        rw [hscan] at hstep
        simp only [Option.map_some', Option.some.injEq] at hstep
        have hs1 := congrArg Prod.snd hstep
        simp only at hs1
        subst hs1
        exact seq_update_inv _ _ _ _ _ hinv
    · rw [if_neg h0] at hstep
      simp only [Option.map_some', Option.some.injEq] at hstep
      have hs1 := congrArg Prod.snd hstep
      simp only at hs1
      subst hs1
      exact seq_update_inv _ _ _ _ _ hinv

/-- C10 witness: applying the preservation direction to the first concrete
step out of the initial state. -/
theorem C10_witness : TapInv (⟨99, 1, false, 0⟩ : TapState) :=
  C10_idle_time_zero.2 tapBlock.1 tapBlock.2 initTapState TAP_NONE
    ⟨99, 1, false, 0⟩ (fun _ => rfl) (by decide)

/-! ## Claim C7: the level-1 Haar transform -/

/-- C7: for every input signal, the level-1 Haar transform produces exactly
len / 2 detail coefficients (so for even len exactly len/2, and for odd len
the trailing unpaired sample is dropped), and coefficient n equals
signal[2n+1] - signal[2n] by exact integer subtraction. -/
theorem C7_haar_exact (inp_sig : List Int) :
    (tap_detect_haar_dwt_l1 inp_sig).length = inp_sig.length / 2 ∧
    ∀ n, n < inp_sig.length / 2 →
      (tap_detect_haar_dwt_l1 inp_sig).getD n 0 =
        inp_sig.getD (2 * n + 1) 0 - inp_sig.getD (2 * n) 0 := by
  constructor
  · simp [tap_detect_haar_dwt_l1]
  · intro n hn
    unfold tap_detect_haar_dwt_l1
    rw [List.getD_eq_getElem?_getD, List.getElem?_map, List.getElem?_range hn]
    rfl

/-- C7 witness: on the odd-length signal [1, 5, 2] exactly one coefficient
is produced and it equals 5 - 1; the trailing sample 2 is dropped. -/
theorem C7_witness :
    0 < ([1, 5, 2] : List Int).length / 2 ∧
    (tap_detect_haar_dwt_l1 [1, 5, 2]).getD 0 0 =
      ([1, 5, 2] : List Int).getD 1 0 - ([1, 5, 2] : List Int).getD 0 0 :=
  ⟨by decide, (C7_haar_exact [1, 5, 2]).2 0 (by decide)⟩

/-! ## Claim C2: in-bounds behaviour of the peak detector -/

theorem readCoeff_eval (l : List Int) (i : Int) (h0 : 0 ≤ i)
    (h1 : i < (l.length : Int)) : readCoeff l i = some (l.getD i.toNat 0) := by
  unfold readCoeff
  rw [if_pos ⟨h0, h1⟩]

theorem boundary_eval (l : List Int) (minT maxT i j : Int)
    (hi0 : 0 ≤ i) (hi1 : i < (l.length : Int))
    (hj0 : 0 ≤ j) (hj1 : j < (l.length : Int)) :
    boundary_peak_check l minT maxT i j =
      some (if (minT ≤ l.getD i.toNat 0 ∧ l.getD i.toNat 0 ≤ maxT) ∧
            l.getD j.toNat 0 < l.getD i.toNat 0 then 1 else 0) := by
  unfold boundary_peak_check
  rw [readCoeff_eval l i hi0 hi1]
  simp only [Option.some_bind]
  by_cases hband : minT ≤ l.getD i.toNat 0 ∧ l.getD i.toNat 0 ≤ maxT
  · rw [if_pos hband, readCoeff_eval l j hj0 hj1]
    simp only [Option.map_some', Option.some.injEq]
    by_cases hlt : l.getD j.toNat 0 < l.getD i.toNat 0
    · rw [if_pos hlt, if_pos ⟨hband, hlt⟩]
    · rw [if_neg hlt, if_neg (by tauto)]
  · rw [if_neg hband, if_neg (by tauto)]

theorem find_peaks_isSome (l : List Int) (minT maxT : Int) (h : 2 ≤ l.length) :
    (tap_detect_find_peaks l minT maxT).isSome = true := by
  unfold tap_detect_find_peaks
  rw [boundary_eval l minT maxT 0 1 (by omega) (by omega) (by omega) (by omega),
    boundary_eval l minT maxT ((l.length : Int) - 1) ((l.length : Int) - 2)
      (by omega) (by omega) (by omega) (by omega)]
  simp

/-- C2 amended: the claim asserted that `len ≥ 2` already makes the
coefficient sequence length `n = len >> 1` at least 2, so that every index
the peak detector reads is in bounds.  That is true only from `len ≥ 4`
onward: for every call with equal-length blocks of length len ≥ 4, the
coefficient sequence has length ≥ 2 and the peak detector touches no index
outside it (tap_detect_status completes for every state); for len = 2 or 3
the coefficient sequence has length 1 and the detector reads out of
bounds (see the counterexample). -/
theorem C2_amended_inbounds_from_len4 (mic1_sig mic2_sig : List Int) (s : TapState)
    (hlen : mic1_sig.length = mic2_sig.length) (h4 : 4 ≤ mic1_sig.length) :
    2 ≤ (tap_detect_haar_dwt_l1 (combine_mics mic1_sig mic2_sig)).length ∧
    (tap_detect_status mic1_sig mic2_sig s).isSome = true := by
  have hcomb : (combine_mics mic1_sig mic2_sig).length = mic1_sig.length := by
    simp [combine_mics, hlen]
  have hhaar : (tap_detect_haar_dwt_l1 (combine_mics mic1_sig mic2_sig)).length =
      mic1_sig.length / 2 := by
    simp [tap_detect_haar_dwt_l1, hcomb]
  have h2 : 2 ≤ (tap_detect_haar_dwt_l1 (combine_mics mic1_sig mic2_sig)).length := by
    omega
  refine ⟨h2, ?_⟩
  unfold tap_detect_status
  by_cases h0 : s.cooldown_block_cnt = 0
  · rw [if_pos h0]
    have hsome := find_peaks_isSome (tap_detect_haar_dwt_l1 (combine_mics mic1_sig mic2_sig))
      TRANSIENT_THRESHOLD_MIN_FXP TRANSIENT_THRESHOLD_MAX_FXP h2
    cases hbs : block_peak_scan mic1_sig mic2_sig with
    | none =>
      unfold block_peak_scan at hbs
      rw [hbs] at hsome
      simp at hsome
    | some np => simp [hbs]
  · rw [if_neg h0]
    simp

/-- C2 witness: a length-4 call from the initial state stays in bounds. -/
theorem C2_witness :
    ([0, 0, 16106127, 0] : List Int).length = ([0, 0, 16106127, 0] : List Int).length ∧
    4 ≤ ([0, 0, 16106127, 0] : List Int).length ∧
    (2 ≤ (tap_detect_haar_dwt_l1
        (combine_mics [0, 0, 16106127, 0] [0, 0, 16106127, 0])).length ∧
      (tap_detect_status [0, 0, 16106127, 0] [0, 0, 16106127, 0] initTapState).isSome
        = true) :=
  ⟨rfl, by decide,
    C2_amended_inbounds_from_len4 [0, 0, 16106127, 0] [0, 0, 16106127, 0]
      initTapState rfl (by decide)⟩

/-- C2 counterexample: after 100 silence blocks the detector reaches the
reachable state ⟨0, 100, false, 0⟩ with the cooldown expired; a valid
equal-length call of length len = 2 then hands the peak detector a
coefficient sequence of length 1 (not ≥ 2 as claimed), on which the n = 0
test reads index 1 and the n = sig_len - 1 test reads index -1, both
outside the fresh coefficient data, so the modelled call aborts with none. -/
theorem C2_counterexample :
    tap_detect_run (List.replicate 100 zeroBlock) initTapState =
      some (List.replicate 100 TAP_NONE, ⟨0, 100, false, 0⟩) ∧
    (tap_detect_haar_dwt_l1 (combine_mics [0, 32212254] [0, 32212254])).length = 1 ∧
    tap_detect_status [0, 32212254] [0, 32212254] ⟨0, 100, false, 0⟩ = none := by
  refine ⟨?_, by decide, by decide⟩
  have hr := run_cooldown_idle (List.replicate 100 zeroBlock) initTapState rfl
    (by simp [initTapState])
  simpa [initTapState] using hr

/-! ## Claim C6: the peak count refines the spec's counting definition -/

/-- The specification's peak predicate, written from the spec's words:
index i qualifies when coefficient[i] lies in the inclusive signed band and
is strictly greater than every existing neighbor (index 0 has no left
neighbor, index n-1 has no right neighbor). -/
def spec_is_peak (l : List Int) (minT maxT : Int) (i : Nat) : Bool :=
  decide (minT ≤ l.getD i 0) && decide (l.getD i 0 ≤ maxT) &&
    (decide (i = 0) || decide (l.getD (i - 1) 0 < l.getD i 0)) &&
    (decide (i + 1 = l.length) || decide (l.getD (i + 1) 0 < l.getD i 0))

/-- The specification's peak count: the number of indices of the coefficient
sequence satisfying spec_is_peak. -/
def spec_peak_count (l : List Int) (minT maxT : Int) : Nat :=
  (List.range l.length).countP (spec_is_peak l minT maxT)

/-- C6: for every coefficient sequence of length ≥ 2 and every band, the
count returned by tap_detect_find_peaks equals the number of indices whose
coefficient lies in the inclusive signed band and is strictly greater than
every existing neighbor, boundary indices comparing only against their
single interior neighbor. -/
theorem C6_find_peaks_refines_spec (l : List Int) (minT maxT : Int)
    (h2 : 2 ≤ l.length) :
    tap_detect_find_peaks l minT maxT = some (spec_peak_count l minT maxT) := by
  obtain ⟨K, hK⟩ : ∃ K, l.length = K + 2 := ⟨l.length - 2, by omega⟩
  have ht1 : ((l.length : Int) - 1).toNat = K + 1 := by omega
  have ht2 : ((l.length : Int) - 2).toNat = K := by omega
  rw [tap_detect_find_peaks,
    boundary_eval l minT maxT 0 1 (by omega) (by omega) (by omega) (by omega),
    boundary_eval l minT maxT ((l.length : Int) - 1) ((l.length : Int) - 2)
      (by omega) (by omega) (by omega) (by omega)]
  simp only [Option.some_bind, Option.map_some', Option.some.injEq, ht1, ht2,
    Int.toNat_zero, Int.toNat_one]
  have hsplit : List.range' 1 (K + 1) = List.range' 1 K ++ [K + 1] := by
    have hap := List.range'_append_1 1 K 1
    rw [List.range'_one, Nat.add_comm 1 K] at hap
    exact hap.symm
  have hmid : (List.range' 1 K).countP (spec_is_peak l minT maxT) =
      (List.range' 1 K).countP (interior_peak_check l minT maxT) := by
    apply List.countP_congr
    intro n hn
    rw [List.mem_range'_1] at hn
    have hn0 : ¬(n = 0) := by omega
    have hnL : ¬(n + 1 = l.length) := by omega
    simp [spec_is_peak, interior_peak_check, hn0, hnL]
  have h0eq : (if spec_is_peak l minT maxT 0 = true then 1 else 0) =
      (if (minT ≤ l.getD 0 0 ∧ l.getD 0 0 ≤ maxT) ∧ l.getD 1 0 < l.getD 0 0
        then 1 else 0) := by
    have hne : ¬((0 : Nat) + 1 = l.length) := by omega
    by_cases hA : minT ≤ l.getD 0 0 <;> by_cases hB : l.getD 0 0 ≤ maxT <;>
      by_cases hC : l.getD 1 0 < l.getD 0 0 <;>
      simp [spec_is_peak, hne, hA, hB, hC]
  have hLeq : (if spec_is_peak l minT maxT (K + 1) = true then 1 else 0) =
      (if (minT ≤ l.getD (K + 1) 0 ∧ l.getD (K + 1) 0 ≤ maxT) ∧
          l.getD K 0 < l.getD (K + 1) 0 then 1 else 0) := by
    have hne : ¬(K + 1 = 0) := by omega
    have hyes : K + 1 + 1 = l.length := by omega
    have hidx : K + 1 - 1 = K := by omega
    by_cases hA : minT ≤ l.getD (K + 1) 0 <;> by_cases hB : l.getD (K + 1) 0 ≤ maxT <;>
      by_cases hC : l.getD K 0 < l.getD (K + 1) 0 <;>
      simp [spec_is_peak, hne, hyes, hidx, hA, hB, hC]
  rw [spec_peak_count, hK]
  rw [show K + 2 = (K + 1) + 1 from rfl, List.range_eq_range', List.range'_succ]
  simp only [Nat.zero_add, Nat.add_sub_cancel]
  rw [hsplit, List.countP_cons, List.countP_append, List.countP_cons, List.countP_nil]
  rw [show K + 1 + 1 - 2 = K from by omega, hmid, h0eq, hLeq]
  omega

/-- C6 witness: on [16106127, 0, 16106127] the two boundary indices are
in-band peaks and the code's count matches the spec's count. -/
theorem C6_witness :
    2 ≤ ([16106127, 0, 16106127] : List Int).length ∧
    tap_detect_find_peaks [16106127, 0, 16106127] TRANSIENT_THRESHOLD_MIN_FXP
        TRANSIENT_THRESHOLD_MAX_FXP =
      some (spec_peak_count [16106127, 0, 16106127] TRANSIENT_THRESHOLD_MIN_FXP
        TRANSIENT_THRESHOLD_MAX_FXP) :=
  ⟨by decide, C6_find_peaks_refines_spec [16106127, 0, 16106127]
    TRANSIENT_THRESHOLD_MIN_FXP TRANSIENT_THRESHOLD_MAX_FXP (by decide)⟩

/-! ## Claim C4: strictly monotonic sequences -/

/-- Strictly increasing coefficient sequence (adjacent form). -/
def StrictIncrAdj (l : List Int) : Prop :=
  ∀ i, i + 1 < l.length → l.getD i 0 < l.getD (i + 1) 0

/-- Strictly decreasing coefficient sequence (adjacent form). -/
def StrictDecrAdj (l : List Int) : Prop :=
  ∀ i, i + 1 < l.length → l.getD (i + 1) 0 < l.getD i 0

/-- C4 counterexample: the claim asserts zero peaks for every strictly
monotonic sequence of length ≥ 2 and any band.  The strictly increasing
sequence [0, 16106127] refutes it with the program's own band: the last
index is strictly greater than its single neighbor and lies in the band, so
tap_detect_find_peaks reports 1 peak, not 0. -/
theorem C4_counterexample :
    ((0 : Int) < 16106127) ∧
    tap_detect_find_peaks [0, 16106127] TRANSIENT_THRESHOLD_MIN_FXP
      TRANSIENT_THRESHOLD_MAX_FXP = some 1 := by
  decide

/-- C4 amended: for a strictly monotonic sequence of length ≥ 2 no interior
index is ever counted; the only possible peak is the extremal boundary
sample (the last index when increasing, index 0 when decreasing), counted
exactly when that value lies in the band.  Zero peaks are reported iff that
endpoint is outside the band. -/
theorem C4_amended_monotonic (l : List Int) (minT maxT : Int) (h2 : 2 ≤ l.length) :
    (StrictIncrAdj l →
      tap_detect_find_peaks l minT maxT =
        some (if minT ≤ l.getD (l.length - 1) 0 ∧ l.getD (l.length - 1) 0 ≤ maxT
          then 1 else 0)) ∧
    (StrictDecrAdj l →
      tap_detect_find_peaks l minT maxT =
        some (if minT ≤ l.getD 0 0 ∧ l.getD 0 0 ≤ maxT then 1 else 0)) := by
  obtain ⟨K, hK⟩ : ∃ K, l.length = K + 2 := ⟨l.length - 2, by omega⟩
  have ht1 : ((l.length : Int) - 1).toNat = K + 1 := by omega
  have ht2 : ((l.length : Int) - 2).toNat = K := by omega
  have hlen1 : l.length - 1 = K + 1 := by omega
  have hlen2 : l.length - 2 = K := by omega
  constructor
  · intro hinc
    have h01 := hinc 0 (by omega)
    rw [Nat.zero_add] at h01
    have hlast := hinc K (by omega)
    rw [hlen1, tap_detect_find_peaks,
      boundary_eval l minT maxT 0 1 (by omega) (by omega) (by omega) (by omega),
      boundary_eval l minT maxT ((l.length : Int) - 1) ((l.length : Int) - 2)
        (by omega) (by omega) (by omega) (by omega)]
    simp only [Option.some_bind, Option.map_some', Option.some.injEq, ht1, ht2,
      Int.toNat_zero, Int.toNat_one, hlen2]
    rw [if_neg (fun hcon => absurd hcon.2 (by omega))]
    rw [List.countP_eq_zero.mpr ?_]
    · rw [if_congr (and_iff_left hlast) rfl rfl]
      simp
    · intro n hn
      rw [List.mem_range'_1] at hn
      have hni := hinc n (by omega)
      simp only [interior_peak_check, Bool.and_eq_true, decide_eq_true_eq, not_and]
      intros
      omega
  · intro hdec
    have h01 := hdec 0 (by omega)
    rw [Nat.zero_add] at h01
    have hlast := hdec K (by omega)
    rw [tap_detect_find_peaks,
      boundary_eval l minT maxT 0 1 (by omega) (by omega) (by omega) (by omega),
      boundary_eval l minT maxT ((l.length : Int) - 1) ((l.length : Int) - 2)
        (by omega) (by omega) (by omega) (by omega)]
    simp only [Option.some_bind, Option.map_some', Option.some.injEq, ht1, ht2,
      Int.toNat_zero, Int.toNat_one, hlen2]
    rw [if_congr (and_iff_left h01) rfl rfl]
    rw [List.countP_eq_zero.mpr ?_]
    · have hL : (if (minT ≤ l.getD (K + 1) 0 ∧ l.getD (K + 1) 0 ≤ maxT) ∧
          l.getD K 0 < l.getD (K + 1) 0 then (1 : Nat) else 0) = 0 :=
        if_neg (fun hcon => absurd hcon.2 (by omega))
      rw [hL]
      simp
    · intro n hn
      rw [List.mem_range'_1] at hn
      have hni := hdec (n - 1) (by omega)
      rw [show n - 1 + 1 = n from by omega] at hni
      simp only [interior_peak_check, Bool.and_eq_true, decide_eq_true_eq, not_and]
      intros
      omega

/-- C4 witness: the strictly increasing sequence [0, 16106127] with the
program's band yields exactly one counted peak, the in-band last sample. -/
theorem C4_witness :
    2 ≤ ([0, 16106127] : List Int).length ∧
    tap_detect_find_peaks [0, 16106127] TRANSIENT_THRESHOLD_MIN_FXP
        TRANSIENT_THRESHOLD_MAX_FXP =
      some (if TRANSIENT_THRESHOLD_MIN_FXP ≤ ([0, 16106127] : List Int).getD
            (([0, 16106127] : List Int).length - 1) 0 ∧
          ([0, 16106127] : List Int).getD (([0, 16106127] : List Int).length - 1) 0 ≤
            TRANSIENT_THRESHOLD_MAX_FXP then 1 else 0) :=
  ⟨by decide,
    (C4_amended_monotonic [0, 16106127] TRANSIENT_THRESHOLD_MIN_FXP
        TRANSIENT_THRESHOLD_MAX_FXP (by decide)).1
      (by
        intro i hi
        have hi0 : i = 0 := by simp at hi; omega
        subst hi0
        decide)⟩

/-! ## Claim C5: scenario C, two transients 100 blocks apart -/

theorem run_cons_some (b : List Int × List Int) (bs : List (List Int × List Int))
    (s : TapState) (r : tap_detection_result_e) (s1 : TapState)
    (rs2 : List tap_detection_result_e) (s2 : TapState)
    (h : tap_detect_status b.1 b.2 s = some (r, s1))
    (h2 : tap_detect_run bs s1 = some (rs2, s2)) :
    tap_detect_run (b :: bs) s = some (r :: rs2, s2) := by
  rw [tap_detect_run, h, Option.some_bind, h2, Option.map_some']

/-- C5: end-to-end scenario C.  Any block sequence consisting of
quiet blocks with exactly two tap transients whose detection blocks are 100
apart — at least 100 quiet blocks (the initial cooldown), a tap block
detected at block b1, 99 quiet blocks, a second tap block detected at
b2 = b1 + 100 ≤ b1 + 130, then any quiet tail — produces double-tap exactly
once, at the second transient's block, and no-tap everywhere else;
afterwards the sequencer is IDLE again. -/
theorem C5_double_tap_scenario (qs1 qs2 qs3 : List (List Int × List Int))
    (T1 T2 : List Int × List Int)
    (hq1 : ∀ b ∈ qs1, isQuietBlock b = true)
    (hq2 : ∀ b ∈ qs2, isQuietBlock b = true)
    (hq3 : ∀ b ∈ qs3, isQuietBlock b = true)
    (hT1 : isTapBlock T1 = true) (hT2 : isTapBlock T2 = true)
    (hlen1 : 100 ≤ qs1.length) (hlen2 : qs2.length = 99) :
    tap_detect_run (qs1 ++ T1 :: (qs2 ++ T2 :: qs3)) initTapState =
      some (List.replicate (qs1.length + 100) TAP_NONE ++
          TAP_DOUBLE :: List.replicate qs3.length TAP_NONE,
        ⟨40 - qs3.length, qs1.length + 101 + qs3.length, false, 0⟩) := by
  have h1 : tap_detect_run qs1 initTapState =
      some (List.replicate qs1.length TAP_NONE, ⟨0, qs1.length, false, 0⟩) := by
    rw [run_quiet_idle qs1 initTapState hq1 rfl]
    simp only [initTapState, Option.some.injEq, Prod.mk.injEq, TapState.mk.injEq,
      true_and, and_true]
    omega
  have hT1step : tap_detect_status T1.1 T1.2 ⟨0, qs1.length, false, 0⟩ =
      some (TAP_NONE, ⟨40, qs1.length + 1, true, qs1.length + 1⟩) :=
    status_tap_idle T1 ⟨0, qs1.length, false, 0⟩ hT1 rfl rfl
  have h2 : tap_detect_run qs2 ⟨40, qs1.length + 1, true, qs1.length + 1⟩ =
      some (List.replicate 99 TAP_NONE,
        ⟨0, qs1.length + 100, true, qs1.length + 1⟩) := by
    rw [run_quiet_wait qs2 ⟨40, qs1.length + 1, true, qs1.length + 1⟩ hq2 rfl
      (by show qs1.length + 1 + qs2.length ≤ qs1.length + 1 + 130; omega)]
    simp only [hlen2, Option.some.injEq, Prod.mk.injEq, TapState.mk.injEq,
      true_and, and_true]
  have hT2step : tap_detect_status T2.1 T2.2 ⟨0, qs1.length + 100, true, qs1.length + 1⟩ =
      some (TAP_DOUBLE, ⟨40, qs1.length + 101, false, 0⟩) := by
    have hd := status_tap_double T2 ⟨0, qs1.length + 100, true, qs1.length + 1⟩ hT2 rfl rfl
      (by show qs1.length + 100 + 1 - (qs1.length + 1) ≤ 130; omega)
    simpa using hd
  have h3 : tap_detect_run qs3 ⟨40, qs1.length + 101, false, 0⟩ =
      some (List.replicate qs3.length TAP_NONE,
        ⟨40 - qs3.length, qs1.length + 101 + qs3.length, false, 0⟩) :=
    run_quiet_idle qs3 ⟨40, qs1.length + 101, false, 0⟩ hq3 rfl
  have hc1 := run_cons_some T2 qs3 ⟨0, qs1.length + 100, true, qs1.length + 1⟩
    TAP_DOUBLE ⟨40, qs1.length + 101, false, 0⟩ _ _ hT2step h3
  have hc2 := run_append qs2 (T2 :: qs3) ⟨40, qs1.length + 1, true, qs1.length + 1⟩
    _ _ _ _ h2 hc1
  have hc3 := run_cons_some T1 (qs2 ++ T2 :: qs3) ⟨0, qs1.length, false, 0⟩
    TAP_NONE ⟨40, qs1.length + 1, true, qs1.length + 1⟩ _ _ hT1step hc2
  have hc4 := run_append qs1 (T1 :: (qs2 ++ T2 :: qs3)) initTapState _ _ _ _ h1 hc3
  rw [hc4]
  simp only [Option.some.injEq, Prod.mk.injEq, and_true]
  rw [show (TAP_NONE :: (List.replicate 99 TAP_NONE ++
      TAP_DOUBLE :: List.replicate qs3.length TAP_NONE)) =
      List.replicate 100 TAP_NONE ++ TAP_DOUBLE :: List.replicate qs3.length TAP_NONE
    from rfl]
  rw [← List.append_assoc, ← List.replicate_add]

/-- C5 witness: 100 silence blocks, a tap block, 99 silence blocks, a second
tap block: one TAP_DOUBLE at the very last block, TAP_NONE elsewhere. -/
theorem C5_witness :
    isTapBlock tapBlock = true ∧
    tap_detect_run (List.replicate 100 zeroBlock ++ tapBlock ::
        (List.replicate 99 zeroBlock ++ [tapBlock])) initTapState =
      some (List.replicate 200 TAP_NONE ++ [TAP_DOUBLE], ⟨40, 201, false, 0⟩) := by
  refine ⟨by decide, ?_⟩
  have h := C5_double_tap_scenario (List.replicate 100 zeroBlock)
    (List.replicate 99 zeroBlock) [] tapBlock tapBlock
    (fun b hb => by rw [List.eq_of_mem_replicate hb]; decide)
    (fun b hb => by rw [List.eq_of_mem_replicate hb]; decide)
    (fun b hb => absurd hb (List.not_mem_nil b))
    (by decide) (by decide) (by simp) (by simp)
  simp only [List.length_replicate, List.length_nil, Nat.add_zero, Nat.sub_zero,
    List.replicate_zero] at h
  norm_num at h
  exact h

/-! ## Claim C3: two transients more than W apart -/

/-- C3 amended.  The timeout test of tap_detect_status is strict
(`current_block_cnt - first_tap_block_time > 130`), so with two qualifying
transients detected at b1 and b2 = b1 + g, g > W = 130, the single-tap for
the first transient is emitted at block b1 + W + 1 — one block later than
the claimed bound b1 + W — either by the timeout path (when b2 > b1 + 131)
or superseded at b2 (when b2 = b1 + 131); and the transient at b2 becomes a
new pending first tap with first_tap_block_time = b2.  Formally: at least
100 quiet blocks, a tap block (detected at b1 = qs1.length + 1), at least
130 quiet blocks, then a second tap block (detected at
b2 = qs1.length + qs2.length + 2). -/
theorem C3_amended_single_at_W_plus_1 (qs1 qs2 : List (List Int × List Int))
    (T1 T2 : List Int × List Int)
    (hq1 : ∀ b ∈ qs1, isQuietBlock b = true)
    (hq2 : ∀ b ∈ qs2, isQuietBlock b = true)
    (hT1 : isTapBlock T1 = true) (hT2 : isTapBlock T2 = true)
    (hlen1 : 100 ≤ qs1.length) (hlen2 : 130 ≤ qs2.length) :
    tap_detect_run (qs1 ++ T1 :: (qs2 ++ [T2])) initTapState =
      some (List.replicate (qs1.length + 131) TAP_NONE ++
          TAP_SINGLE :: List.replicate (qs2.length - 130) TAP_NONE,
        ⟨40, qs1.length + qs2.length + 2, true, qs1.length + qs2.length + 2⟩) := by
  have h1 : tap_detect_run qs1 initTapState =
      some (List.replicate qs1.length TAP_NONE, ⟨0, qs1.length, false, 0⟩) := by
    rw [run_quiet_idle qs1 initTapState hq1 rfl]
    simp only [initTapState, Option.some.injEq, Prod.mk.injEq, TapState.mk.injEq,
      true_and, and_true]
    omega
  have hT1step : tap_detect_status T1.1 T1.2 ⟨0, qs1.length, false, 0⟩ =
      some (TAP_NONE, ⟨40, qs1.length + 1, true, qs1.length + 1⟩) :=
    status_tap_idle T1 ⟨0, qs1.length, false, 0⟩ hT1 rfl rfl
  have hsplit : List.take 130 qs2 ++ List.drop 130 qs2 = qs2 :=
    List.take_append_drop 130 qs2
  have hAlen : (List.take 130 qs2).length = 130 := by
    simp [List.length_take]
    omega
  have hA : tap_detect_run (List.take 130 qs2) ⟨40, qs1.length + 1, true, qs1.length + 1⟩ =
      some (List.replicate 130 TAP_NONE,
        ⟨0, qs1.length + 131, true, qs1.length + 1⟩) := by
    rw [run_quiet_wait (List.take 130 qs2) ⟨40, qs1.length + 1, true, qs1.length + 1⟩
      (fun b hb => hq2 b (List.take_subset 130 qs2 hb)) rfl
      (by show qs1.length + 1 + (List.take 130 qs2).length ≤ qs1.length + 1 + 130; omega)]
    simp only [hAlen, Option.some.injEq, Prod.mk.injEq, TapState.mk.injEq,
      true_and, and_true]
  conv_lhs => rw [← hsplit, List.append_assoc]
  cases hB : List.drop 130 qs2 with
  | nil =>
    have hq2len : qs2.length = 130 := by
      have hlen := congrArg List.length hsplit
      rw [List.length_append, hAlen, hB] at hlen
      simpa using hlen.symm
    have hT2step : tap_detect_status T2.1 T2.2 ⟨0, qs1.length + 131, true, qs1.length + 1⟩ =
        some (TAP_SINGLE, ⟨40, qs1.length + 132, true, qs1.length + 132⟩) := by
      have hs := status_tap_single T2 ⟨0, qs1.length + 131, true, qs1.length + 1⟩ hT2 rfl rfl
        (by show 130 < qs1.length + 131 + 1 - (qs1.length + 1); omega)
      simpa using hs
    have hc1 := run_cons_some T2 [] ⟨0, qs1.length + 131, true, qs1.length + 1⟩
      TAP_SINGLE ⟨40, qs1.length + 132, true, qs1.length + 132⟩ [] _ hT2step rfl
    have hc2 := run_append (List.take 130 qs2) [T2]
      ⟨40, qs1.length + 1, true, qs1.length + 1⟩ _ _ _ _ hA hc1
    have hc3 := run_cons_some T1 (List.take 130 qs2 ++ [T2])
      ⟨0, qs1.length, false, 0⟩ TAP_NONE ⟨40, qs1.length + 1, true, qs1.length + 1⟩
      _ _ hT1step hc2
    have hc4 := run_append qs1 (T1 :: (List.take 130 qs2 ++ [T2])) initTapState
      _ _ _ _ h1 hc3
    rw [hq2len]
    simp only [List.nil_append]
    rw [hc4]
    rw [show qs1.length + 130 + 2 = qs1.length + 132 from by omega]
    rw [show (130 : Nat) - 130 = 0 from rfl]
    simp only [List.replicate_zero]
    rw [show List.replicate (qs1.length + 131) TAP_NONE =
        List.replicate qs1.length TAP_NONE ++ List.replicate 131 TAP_NONE from
      List.replicate_add _ _ _]
    rw [List.append_assoc]
    rfl
  | cons b B =>
    have hbq : isQuietBlock b = true := by
      apply hq2
      apply List.drop_subset 130 qs2
      rw [hB]
      exact List.mem_cons_self b B
    have hBq : ∀ x ∈ B, isQuietBlock x = true := by
      intro x hx
      apply hq2
      apply List.drop_subset 130 qs2
      rw [hB]
      exact List.mem_cons_of_mem b hx
    have hq2len : qs2.length = 131 + B.length := by
      have hlen := congrArg List.length hsplit
      rw [List.length_append, hAlen, hB] at hlen
      simp only [List.length_cons] at hlen
      omega
    have hbstep : tap_detect_status b.1 b.2 ⟨0, qs1.length + 131, true, qs1.length + 1⟩ =
        some (TAP_SINGLE, ⟨0, qs1.length + 132, false, 0⟩) := by
      have hs := status_quiet_timeout b ⟨0, qs1.length + 131, true, qs1.length + 1⟩ hbq rfl
        (by show 130 < qs1.length + 131 + 1 - (qs1.length + 1); omega)
      simpa using hs
    have hBrun : tap_detect_run B ⟨0, qs1.length + 132, false, 0⟩ =
        some (List.replicate B.length TAP_NONE,
          ⟨0, qs1.length + 132 + B.length, false, 0⟩) := by
      rw [run_quiet_idle B ⟨0, qs1.length + 132, false, 0⟩ hBq rfl]
      simp only [Option.some.injEq, Prod.mk.injEq, TapState.mk.injEq, true_and, and_true]
      omega
    have hT2step : tap_detect_status T2.1 T2.2 ⟨0, qs1.length + 132 + B.length, false, 0⟩ =
        some (TAP_NONE, ⟨40, qs1.length + 132 + B.length + 1, true,
          qs1.length + 132 + B.length + 1⟩) :=
      status_tap_idle T2 ⟨0, qs1.length + 132 + B.length, false, 0⟩ hT2 rfl rfl
    have hc0 := run_cons_some T2 [] ⟨0, qs1.length + 132 + B.length, false, 0⟩
      TAP_NONE ⟨40, qs1.length + 132 + B.length + 1, true,
        qs1.length + 132 + B.length + 1⟩ [] _ hT2step rfl
    have hc1 := run_append B [T2] ⟨0, qs1.length + 132, false, 0⟩ _ _ _ _ hBrun hc0
    have hc2 := run_cons_some b (B ++ [T2]) ⟨0, qs1.length + 131, true, qs1.length + 1⟩
      TAP_SINGLE ⟨0, qs1.length + 132, false, 0⟩ _ _ hbstep hc1
    have hc3 := run_append (List.take 130 qs2) (b :: (B ++ [T2]))
      ⟨40, qs1.length + 1, true, qs1.length + 1⟩ _ _ _ _ hA hc2
    have hc4 := run_cons_some T1 (List.take 130 qs2 ++ (b :: (B ++ [T2])))
      ⟨0, qs1.length, false, 0⟩ TAP_NONE ⟨40, qs1.length + 1, true, qs1.length + 1⟩
      _ _ hT1step hc3
    have hc5 := run_append qs1 (T1 :: (List.take 130 qs2 ++ (b :: (B ++ [T2]))))
      initTapState _ _ _ _ h1 hc4
    rw [hq2len]
    simp only [List.cons_append]
    rw [hc5]
    rw [show qs1.length + (131 + B.length) + 2 = qs1.length + 132 + B.length + 1 from
      by omega]
    rw [show 131 + B.length - 130 = B.length + 1 from by omega]
    rw [show List.replicate (B.length + 1) TAP_NONE =
        List.replicate B.length TAP_NONE ++ [TAP_NONE] from List.replicate_succ' _ _]
    rw [show List.replicate (qs1.length + 131) TAP_NONE =
        List.replicate qs1.length TAP_NONE ++ List.replicate 131 TAP_NONE from
      List.replicate_add _ _ _]
    rw [List.append_assoc]
    rfl

/-- C3 witness: 100 silence blocks, a tap at block 101, 130 silence blocks,
a second tap at block 232 = 101 + 131: the late second tap supersedes, the
single-tap for the first transient is emitted at block 232, and block 232
becomes the new pending first tap. -/
theorem C3_witness :
    isTapBlock tapBlock = true ∧
    tap_detect_run (List.replicate 100 zeroBlock ++ tapBlock ::
        (List.replicate 130 zeroBlock ++ [tapBlock])) initTapState =
      some (List.replicate 231 TAP_NONE ++ [TAP_SINGLE], ⟨40, 232, true, 232⟩) := by
  refine ⟨by decide, ?_⟩
  have h := C3_amended_single_at_W_plus_1 (List.replicate 100 zeroBlock)
    (List.replicate 130 zeroBlock) tapBlock tapBlock
    (fun b hb => by rw [List.eq_of_mem_replicate hb]; decide)
    (fun b hb => by rw [List.eq_of_mem_replicate hb]; decide)
    (by decide) (by decide) (by simp) (by simp)
  simp only [List.length_replicate] at h
  norm_num at h
  exact h

/-- The concrete C3 counterexample run: 100 silence blocks, a tap block
(detected at b1 = 101), 199 silence blocks, a tap block (detected at
b2 = 301, so b2 - b1 = 200 > W = 130). -/
def C3cexBlocks : List (List Int × List Int) :=
  List.replicate 100 zeroBlock ++ tapBlock :: (List.replicate 199 zeroBlock ++ [tapBlock])

/-- The classifications the code produces on C3cexBlocks. -/
def C3cexOut : List tap_detection_result_e :=
  List.replicate 231 TAP_NONE ++ TAP_SINGLE :: (List.replicate 68 TAP_NONE ++ [TAP_NONE])

set_option maxRecDepth 40000 in
/-- C3 counterexample: on two qualifying transients at b1 = 101 and
b2 = 301 (so b2 - b1 > W = 130 and the timeout path fires), the single-tap
for the first transient appears first at output index 231, i.e. at block
232 = b1 + W + 1, NOT at a block ≤ b1 + W = 231 as the claim states; no
earlier block emits it (TAP_SINGLE first occurs at index 231). -/
theorem C3_counterexample :
    tap_detect_run C3cexBlocks initTapState = some (C3cexOut, ⟨40, 301, true, 301⟩) ∧
    List.indexOf TAP_SINGLE C3cexOut = 231 := by
  constructor
  · decide
  · decide
